import Mathlib

/-!
Verification development for the Productboard webhook service (`src/server.js`).

The JavaScript program is shallowly embedded: JSON values become the inductive
type `Js`, JavaScript truthiness and property access become `Js.truthy` and
`Js.get`, and each function of the source file becomes a Lean definition of the
same name.  Code that can raise a runtime `TypeError` (calling
`String.prototype.startsWith` or `trim` on a non-string) is embedded in
`Except`, mirroring the `try`/`catch` structure of the server.
-/

set_option autoImplicit false

/-- A JavaScript/JSON value.  `null` conflates JS `null` and `undefined`
(both are falsy and both yield `undefined` on property access, which is all
the embedded code observes).  Numbers are modelled as integers; no code path
in `server.js` depends on fractional or NaN arithmetic. -/
inductive Js where
  | null
  | bool (b : Bool)
  | num (n : Int)
  | str (s : String)
  | arr (xs : List Js)
  | obj (fields : List (String × Js))

namespace Js

/-- JavaScript truthiness: `null`/`undefined`, `false`, `0` and `""` are falsy;
arrays and objects (even empty ones) are truthy. -/
def truthy : Js → Bool
  | .null => false
  | .bool b => b
  | .num n => !(n == 0)
  | .str s => !(s == "")
  | .arr _ => true
  | .obj _ => true

/-- First binding of a key in an object's field list (object literals in the
embedded program never repeat a key). -/
def fieldLookup : List (String × Js) → String → Js
  | [], _ => .null
  | (k, v) :: rest, key => if k = key then v else fieldLookup rest key

/-- Property access `o.k` / `o?.k`: `undefined` (here `.null`) on anything that
is not an object carrying the key. -/
def get : Js → String → Js
  | .obj fs, key => fieldLookup fs key
  | _, _ => .null

/-- `typeof v === "string"`. -/
def isStr : Js → Bool
  | .str _ => true
  | _ => false

/-- Strict equality `v === lit` against a string literal. -/
def isStrEq : Js → String → Bool
  | .str s, lit => decide (s = lit)
  | _, _ => false

/-- `Array.isArray v`. -/
def isArr : Js → Bool
  | .arr _ => true
  | _ => false

/-- `typeof v === "object"` for the values reachable in `normalizeEvents`
(arrays are objects in JS; the embedded callers exclude `null` by a
truthiness test first). -/
def isObjType : Js → Bool
  | .obj _ => true
  | .arr _ => true
  | .null => true
  | _ => false

mutual

/-- The string a value interpolates to in a template literal such as
`/products/` followed by the id (array elements stringify recursively, with
`null` elements rendered empty, as `Array.prototype.toString` does). -/
def jsKey : Js → String
  | .str s => s
  | .num n => toString n
  | .bool true => "true"
  | .bool false => "false"
  | .null => "null"
  | .arr xs => String.intercalate "," (jsKeyList xs)
  | .obj _ => "[object Object]"

def jsKeyList : List Js → List String
  | [] => []
  | .null :: rest => "" :: jsKeyList rest
  | v :: rest => jsKey v :: jsKeyList rest

end

/-- Underlying string of a string value (`""` otherwise). -/
def strVal : Js → String
  | .str s => s
  | _ => ""

end Js

/-- JavaScript `a || b`. -/
def jsOr (a b : Js) : Js :=
  if a.truthy then a else b

/-- `t.startsWith p`: a runtime `TypeError` when `t` is not a string. -/
def jsStartsWith (t : Js) (p : String) : Except Unit Bool :=
  match t with
  | .str s => .ok (s.startsWith p)
  | _ => .error ()

/-! ## The deep object-graph walk (`server.js` lines 124-139)

`extractFeatureIdFromEvent` ends with an inner function `walk` that closes
over a mutable `found`, initially `null`.  `walk` returns immediately when its
argument is falsy or `found` is truthy; it recurses element-wise through
arrays, and on an object first tests `(o.type || o.entityType) === "feature"`
with `typeof (o.id || o.entityId) === "string"` (setting `found` on a hit)
before recursing through the values in key order.  The embedding threads
`found` explicitly. -/

mutual

def walkSt (found : Js) (o : Js) : Js :=
  if found.truthy then found
  else if !o.truthy then found
  else
    match o with
    | .arr xs => walkList found xs
    | .obj fs =>
        let maybeId := jsOr (Js.fieldLookup fs "id") (Js.fieldLookup fs "entityId")
        let maybeType := jsOr (Js.fieldLookup fs "type") (Js.fieldLookup fs "entityType")
        if maybeType.isStrEq "feature" && maybeId.isStr then maybeId
        else walkFields found fs
    | _ => found

def walkList (found : Js) (xs : List Js) : Js :=
  match xs with
  | [] => found
  | x :: rest => walkList (walkSt found x) rest

def walkFields (found : Js) (fs : List (String × Js)) : Js :=
  match fs with
  | [] => found
  | (_, v) :: rest => walkFields (walkSt found v) rest

end

/-! ## The `links.target` URL pattern (`server.js` line 113)

`target.match(/\x2ffeatures\x2f([0-9a-f-]\x7b20,\x7d)$\x2fi)`: the regex
matches at the leftmost position where the literal `/features/` is followed by
at least 20 case-insensitive hex-or-hyphen characters running to the end of
the string; the captured identifier is that trailing run. -/

def isHexHyphen (c : Char) : Bool :=
  (('0' ≤ c) && (c ≤ '9')) || (('a' ≤ c) && (c ≤ 'f')) ||
    (('A' ≤ c) && (c ≤ 'F')) || (c == '-')

def featureTargetScan : List Char → Option String
  | [] => none
  | c :: rest =>
      if ("/features/".toList).isPrefixOf (c :: rest) then
        let tail := (c :: rest).drop 10
        if decide (20 ≤ tail.length) && tail.all isHexHyphen then some (String.mk tail)
        else featureTargetScan rest
      else featureTargetScan rest

def featureIdFromTarget (s : String) : Option String :=
  featureTargetScan s.toList

/-! ## `extractFeatureIdFromEvent` (`server.js` lines 103-140)

The function is a first-match cascade; each `extractStepN` embeds one source
check, falling through to the next.  The event-kind value
`t = e.eventType || e.type || ""` can be a truthy non-string, in which case
the calls to `t.startsWith` raise a `TypeError` (the `.error` branches). -/

/-- Line 122: `e?.entity?.entity?.type === "feature" && e?.entity?.entity?.id`,
then the deep-walk fallback. -/
def extractStep5b (_t e : Js) : Except Unit Js :=
  if (((e.get "entity").get "entity").get "type").isStrEq "feature"
      && (((e.get "entity").get "entity").get "id").truthy then
    .ok (((e.get "entity").get "entity").get "id")
  else .ok (walkSt .null e)

/-- Line 121: `e?.data?.id && t.startsWith("feature.")`. -/
def extractStep5a (t e : Js) : Except Unit Js :=
  if ((e.get "data").get "id").truthy then
    match jsStartsWith t "feature." with
    | .error u => .error u
    | .ok true => .ok ((e.get "data").get "id")
    | .ok false => extractStep5b t e
  else extractStep5b t e

/-- Line 120: `e?.data?.entity?.type === "feature" && e?.data?.entity?.id`. -/
def extractStep5 (t e : Js) : Except Unit Js :=
  if (((e.get "data").get "entity").get "type").isStrEq "feature"
      && (((e.get "data").get "entity").get "id").truthy then
    .ok (((e.get "data").get "entity").get "id")
  else extractStep5a t e

/-- Line 119: `e?.entityId && (t.startsWith("feature.") || e?.entityType ===
"feature")`; JS evaluates `t.startsWith` before the `||` alternative. -/
def extractStep4 (t e : Js) : Except Unit Js :=
  if (e.get "entityId").truthy then
    match jsStartsWith t "feature." with
    | .error u => .error u
    | .ok b =>
        if b || (e.get "entityType").isStrEq "feature" then .ok (e.get "entityId")
        else extractStep5 t e
  else extractStep5 t e

/-- Line 118: `e?.entity?.type === "feature" && e?.entity?.id`. -/
def extractStep3 (t e : Js) : Except Unit Js :=
  if ((e.get "entity").get "type").isStrEq "feature" && ((e.get "entity").get "id").truthy then
    .ok ((e.get "entity").get "id")
  else extractStep4 t e

/-- Lines 111-115: parse `.../features/{id}` out of
`e?.links?.target || e?.data?.links?.target`. -/
def extractStep2 (t e : Js) : Except Unit Js :=
  match jsOr ((e.get "links").get "target") (((e.get "data").get "links").get "target") with
  | .str ts =>
      match featureIdFromTarget ts with
      | some m => .ok (.str m)
      | none => extractStep3 t e
  | _ => extractStep3 t e

/-- Line 108: `typeof e.id === "string" && t.startsWith("feature.")`. -/
def extractStep1 (t e : Js) : Except Unit Js :=
  if (e.get "id").isStr then
    match jsStartsWith t "feature." with
    | .error u => .error u
    | .ok true => .ok (e.get "id")
    | .ok false => extractStep2 t e
  else extractStep2 t e

def extractFeatureIdFromEvent (e : Js) : Except Unit Js :=
  if !e.truthy then .ok .null
  else extractStep1 (jsOr (jsOr (e.get "eventType") (e.get "type")) (.str "")) e

/-! ## `normalizeEvents` (`server.js` lines 143-149) -/

def normalizeEvents (body : Js) : List Js :=
  if !body.truthy then []
  else
    match body.get "data" with
    | .arr xs => xs
    | d =>
        match d.get "events" with
        | .arr es => es
        | _ => if d.truthy && d.isObjType then [d] else [body]

/-! ## The per-event loop of the webhook route (`server.js` lines 162-171)

For each raw sub-event the route computes `et = evt?.eventType || evt?.type
|| ""` and `fid = extractFeatureIdFromEvent(evt)` (which may throw), and hands
`fid` to `handleFeatureEvent` only when `fid` is truthy and `et` starts with
`"feature."`.  `emitLoop` returns the list of feature ids handled, or the
uncaught exception that aborted the loop. -/

def emitLoop : List Js → Except Unit (List Js)
  | [] => .ok []
  | evt :: rest =>
      match extractFeatureIdFromEvent evt with
      | .error u => .error u
      | .ok fid =>
          if fid.truthy then
            match jsStartsWith (jsOr (jsOr (evt.get "eventType") (evt.get "type")) (.str "")) "feature." with
            | .error u => .error u
            | .ok true =>
                match emitLoop rest with
                | .error u => .error u
                | .ok l => .ok (fid :: l)
            | .ok false => emitLoop rest
          else emitLoop rest

def canonicalEvents (body : Js) : Except Unit (List Js) :=
  emitLoop (normalizeEvents body)

/-! ## The sync orchestrator (`server.js` lines 50-100)

`handleFeatureEvent` fetches the feature, resolves the parent product id from
`feature?.product?.id || feature?.parent?.product?.id`, fetches the product,
and writes the custom field: the raw name in `text` mode, or the matched
single-select option id otherwise.  Remote reads are modelled as partial maps
keyed by the interpolated URL segment; `none` models a non-success response
(`pbFetch` throws), `some v` a successful JSON response `v` (`some .null`
covers a `204`).  The `PUT` write is modelled as the `WriteCall` it issues;
the whole body runs inside `try`/`catch`, so the function is total and
returns a `SyncOutcome`. -/

/-- Configuration drawn from the environment: `FIELD_MODE` (defaults to
`"singleSelect"`; only the literal `"text"` selects text mode) and
`PB_CUSTOM_FIELD_ID`. -/
structure Config where
  fieldMode : String
  cfId : String

/-- The value written by `setCustomFieldValue`: the raw product-name value in
text mode, or an `optionId` reference in single-select mode. -/
inductive FieldValue where
  | text (v : Js)
  | singleSelect (optionId : Js)

/-- One `PUT /hierarchy-entities/custom-fields-values/value` call. -/
structure WriteCall where
  featureId : String
  customFieldId : String
  value : FieldValue

/-- `setCustomFieldValue` (`server.js` lines 61-71) builds the full-replace
`PUT` for one feature, custom field and value. -/
def setCustomFieldValue (featureId : String) (customFieldId : String) (value : FieldValue) :
    WriteCall :=
  ⟨featureId, customFieldId, value⟩

/-- Errors caught by `handleFeatureEvent`: a failed remote call, the
no-matching-option throw of `resolveSingleSelectOptionId`, or a runtime
`TypeError` (such as `trim` on a non-string label). -/
inductive SyncErr where
  | remoteError (what : String)
  | noMatchingOption (cfId : String) (productName : String)
  | typeError
deriving DecidableEq

/-- The remote Productboard state visible to one sync: reads keyed by the id
interpolated into the request path, plus the custom-field values the service
stores (written, never read, by this program). -/
structure RemoteState where
  features : String → Option Js
  products : String → Option Js
  fieldDefs : String → Option Js
  fieldValues : String → Option FieldValue

/-- Whitespace trimmed by `String.prototype.trim`. -/
def isJsSpace (c : Char) : Bool :=
  c == ' ' || c == '\t' || c == '\n' || c == '\r' || c == '\x0b' || c == '\x0c'

/-- Leading and trailing whitespace removed. -/
def trimList (l : List Char) : List Char :=
  ((l.dropWhile isJsSpace).reverse.dropWhile isJsSpace).reverse

/-- The comparable key `s.trim().toLowerCase()` produces: trim both ends,
then lowercase character-wise (locale-insensitive default mapping). -/
def normKey (s : String) : String :=
  String.mk ((trimList s.toList).map Char.toLower)

/-- `norm` (`server.js` line 50): `(s || "").trim().toLowerCase()`; a
`TypeError` when `s` is a truthy non-string.  (Named `normLabel` here because
plain `norm` is ambiguous with the mathlib norm.) -/
def normLabel (s : Js) : Except SyncErr String :=
  match jsOr s (.str "") with
  | .str t => .ok (normKey t)
  | _ => .error .typeError

/-- The `find` callback loop of `resolveSingleSelectOptionId` (line 74):
first option `o` with `norm(o.label) === norm(productName)`, evaluating the
left operand first as JS does. -/
def findOption (productName : Js) : List Js → Except SyncErr (Option Js)
  | [] => .ok none
  | o :: rest =>
      match normLabel (o.get "label") with
      | .error e => .error e
      | .ok lab =>
          match normLabel productName with
          | .error e => .error e
          | .ok pn => if lab = pn then .ok (some o) else findOption productName rest

/-- `resolveSingleSelectOptionId` (`server.js` lines 72-77) given the fetched
definition: `(def?.options || []).find(...)`, throwing when nothing matches.
A truthy non-array `options` value has no `find` method (`TypeError`). -/
def resolveSingleSelectOptionId (cfId : String) (cfDef : Js) (productName : Js) :
    Except SyncErr Js :=
  match jsOr (cfDef.get "options") (.arr []) with
  | .arr opts =>
      match findOption productName opts with
      | .error e => .error e
      | .ok (some hit) => .ok (hit.get "id")
      | .ok none => .error (.noMatchingOption cfId (Js.jsKey productName))
  | _ => .error .typeError

/-- Line 82: `feature?.product?.id || feature?.parent?.product?.id`. -/
def getParentProductId (feature : Js) : Js :=
  jsOr ((feature.get "product").get "id") (((feature.get "parent").get "product").get "id")

/-- The `try` body of `handleFeatureEvent` (lines 80-96), parameterised by the
three remote read maps so that its independence from stored field values is
syntactic.  Returns the write performed, `none` for the designed skips
(no parent id, no product name). -/
def handleFeatureEventCore (cfg : Config)
    (features products fieldDefs : String → Option Js) (featureId : String) :
    Except SyncErr (Option WriteCall) :=
  match features featureId with
  | none => .error (.remoteError "GET features")
  | some feature =>
      let productId := getParentProductId feature
      if !productId.truthy then .ok none
      else
        match products (Js.jsKey productId) with
        | none => .error (.remoteError "GET products")
        | some product =>
            let productName := product.get "name"
            if !productName.truthy then .ok none
            else if cfg.fieldMode = "text" then
              .ok (some (setCustomFieldValue featureId cfg.cfId (.text productName)))
            else
              match fieldDefs cfg.cfId with
              | none => .error (.remoteError "GET custom-fields")
              | some cfDef =>
                  match resolveSingleSelectOptionId cfg.cfId cfDef productName with
                  | .error e => .error e
                  | .ok optionId =>
                      .ok (some (setCustomFieldValue featureId cfg.cfId (.singleSelect optionId)))

/-- Outcome of one per-entity sync: completed (with the write performed, if
any) or failed with a caught, logged error.  `handleFeatureEvent` never
raises outward. -/
inductive SyncOutcome where
  | completed (w : Option WriteCall)
  | failed (e : SyncErr)

/-- `handleFeatureEvent` (lines 79-100): the `try` body with every error
caught and converted to a log record. -/
def handleFeatureEvent (cfg : Config) (st : RemoteState) (featureId : String) : SyncOutcome :=
  match handleFeatureEventCore cfg st.features st.products st.fieldDefs featureId with
  | .ok w => .completed w
  | .error e => .failed e

/-- The writes an outcome performed (at most one). -/
def outcomeWrites : SyncOutcome → List WriteCall
  | .completed (some w) => [w]
  | _ => []

/-- Effect of one `PUT` on the stored field values (full replace per
feature). -/
def applyWrite (st : RemoteState) (w : WriteCall) : RemoteState :=
  { st with fieldValues := fun fid => if fid = w.featureId then some w.value else st.fieldValues fid }

def applyOutcome (st : RemoteState) : SyncOutcome → RemoteState
  | .completed (some w) => applyWrite st w
  | _ => st

/-- One sync together with its effect on the remote store. -/
def runSync (cfg : Config) (st : RemoteState) (fid : String) : RemoteState × SyncOutcome :=
  (applyOutcome st (handleFeatureEvent cfg st fid), handleFeatureEvent cfg st fid)

/-- Sequential per-entity processing of a batch of feature ids, as performed
by the webhook route's event loop and by the backfill sweep. -/
def runBatch (cfg : Config) : RemoteState → List String → RemoteState × List SyncOutcome
  | st, [] => (st, [])
  | st, fid :: rest =>
      let o := handleFeatureEvent cfg st fid
      ((runBatch cfg (applyOutcome st o) rest).1, o :: (runBatch cfg (applyOutcome st o) rest).2)

/-! ## The webhook route (`server.js` lines 152-195)

`SHARED_SECRET` is `process.env.WEBHOOK_SHARED_SECRET || null` (line 19), so a
configured secret is never the empty string.  The route first applies the
shared-secret check (401 on mismatch), then normalizes and processes the
events inside the surrounding `try`; any uncaught exception lands in the
`catch`, which still answers 200. -/

def mkSharedSecret (env : Option String) : Option String :=
  match env with
  | some s => if s = "" then none else some s
  | none => none

/-- Event processing and response of the route body after the secret check:
status 200 whether the loop completes or throws; the second component lists
the feature ids handed to `handleFeatureEvent`, in order (empty when the loop
aborted). -/
def webhookProcess (body : Js) : Nat × List Js :=
  match canonicalEvents body with
  | .ok l => (200, l)
  | .error _ => (200, [])

/-- The `/pb-webhook` handler: response status and handled feature ids, given
the configured secret, the incoming `x-shared-secret` header and the parsed
JSON body. -/
def pbWebhook (secret incoming : Option String) (body : Js) : Nat × List Js :=
  match secret with
  | none => webhookProcess body
  | some s =>
      if s = "" then webhookProcess body
      else if incoming ≠ some s then (401, []) else webhookProcess body

/-! ## The webhook registrar (`server.js` lines 198-222)

`ensureWebhook` lists the registrations, looks for one whose
`notification?.url` strictly equals `WEBHOOK_URL`, and creates one otherwise.
The external store is modelled from the spec as the list of registrations the
service would return from `GET` and append to on `POST` (spec section 4.6: a
created registration is keyed by the requested target URL). -/

def regMatchesUrl (targetUrl : String) (w : Js) : Bool :=
  ((w.get "notification").get "url").isStrEq targetUrl

/-- The registration the `POST` body of lines 210-216 creates. -/
def mkRegistration (targetUrl : String) : Js :=
  .obj [("name", .str "Auto: Product field updater"),
        ("events", .arr [.obj [("eventType", .str "feature.created")],
                         .obj [("eventType", .str "feature.updated")]]),
        ("notification", .obj [("url", .str targetUrl), ("version", .num 1)])]

def ensureWebhook (targetUrl : String) (regs : List Js) : List Js :=
  match regs.find? (regMatchesUrl targetUrl) with
  | some _ => regs
  | none => regs ++ [mkRegistration targetUrl]

/-- Number of stored registrations whose notification URL equals the
target. -/
def countMatching (targetUrl : String) (regs : List Js) : Nat :=
  (regs.filter (regMatchesUrl targetUrl)).length

/-! ## The backfill driver (`server.js` lines 231-245)

The `do`/`while` loop fetches a page for the current cursor, iterates
`page.items || page.data || page`, syncs every element with a truthy `id`
(`handleFeatureEvent` never throws and does not influence the loop control,
so the model counts the processed entities), then advances to
`page.nextCursor || page?.meta?.nextCursor || null` and repeats while that
cursor is truthy.  The loop is embedded with explicit fuel: `none` means the
loop is still running after `fuel` iterations; `some (.error ())` models the
uncaught `TypeError` of `for`/`of` over a non-iterable page; `some (.ok
(iterations, processed))` a completed backfill. -/

def pageItems (page : Js) : Js :=
  jsOr (jsOr (page.get "items") (page.get "data")) page

def pageNext (page : Js) : Js :=
  jsOr (jsOr (page.get "nextCursor") ((page.get "meta").get "nextCursor")) .null

def countProcessed (xs : List Js) : Nat :=
  (xs.filter fun f => (f.get "id").truthy).length

def backfillLoop (fetchPage : Js → Js) : Nat → Js → Nat → Nat → Option (Except Unit (Nat × Nat))
  | 0, _, _, _ => none
  | fuel + 1, cursor, iters, processed =>
      let page := fetchPage cursor
      match pageItems page with
      | .arr xs =>
          let c := pageNext page
          if c.truthy then backfillLoop fetchPage fuel c (iters + 1) (processed + countProcessed xs)
          else some (.ok (iters + 1, processed + countProcessed xs))
      | .str _ =>
          let c := pageNext page
          if c.truthy then backfillLoop fetchPage fuel c (iters + 1) processed
          else some (.ok (iters + 1, processed))
      | _ => some (.error ())

/-- `backfillAllFeatures` starts the loop with a `null` cursor. -/
def backfillAllFeatures (fetchPage : Js → Js) (fuel : Nat) : Option (Except Unit (Nat × Nat)) :=
  backfillLoop fetchPage fuel .null 0 0

/-! ## Concrete payloads and remote states used by the witnesses and
counterexamples below (scenarios A, C, D of the specification's testable
properties, plus adversarial inputs). -/

def cfgText : Config := ⟨"text", "cf-1"⟩

def cfgSel : Config := ⟨"singleSelect", "cf-1"⟩

def featureF1 : Js := .obj [("id", .str "F1"), ("product", .obj [("id", .str "P1")])]

def productP1 : Js := .obj [("id", .str "P1"), ("name", .str "Atlas")]

/-- Scenario A state: `F1` has direct parent `P1` named `"Atlas"`. -/
def stA : RemoteState :=
  { features := fun fid => if fid = "F1" then some featureF1 else none
    products := fun pid => if pid = "P1" then some productP1 else none
    fieldDefs := fun _ => none
    fieldValues := fun _ => none }

def featureF3 : Js := .obj [("id", .str "F3")]

/-- Scenario C state: `F3` carries no parent reference at all. -/
def stC : RemoteState :=
  { features := fun fid => if fid = "F3" then some featureF3 else none
    products := fun _ => none
    fieldDefs := fun _ => none
    fieldValues := fun _ => none }

def featureF4 : Js :=
  .obj [("id", .str "F4"), ("parent", .obj [("product", .obj [("id", .str "P4")])])]

def productP4 : Js := .obj [("id", .str "P4"), ("name", .str "Zephyr")]

def optNimbus : Js := .obj [("id", .str "o1"), ("label", .str "Nimbus")]

def cfDefD : Js := .obj [("id", .str "cf-1"), ("options", .arr [optNimbus])]

/-- Scenario D state: `F4` has parent `P4` named `"Zephyr"`, and the
enumerated field offers only the option labelled `"Nimbus"`. -/
def stD : RemoteState :=
  { features := fun fid => if fid = "F4" then some featureF4 else none
    products := fun pid => if pid = "P4" then some productP4 else none
    fieldDefs := fun cf => if cf = "cf-1" then some cfDefD else none
    fieldValues := fun _ => none }

def optO1 : Js := .obj [("id", .str "o1"), ("label", .str " Nimbus ")]

def optO2 : Js := .obj [("id", .str "o2"), ("label", .str "Orbit")]

def cfDefB : Js := .obj [("options", .arr [optO1, optO2])]

/-- A raw sub-event whose only feature reference sits two levels deep, with no
top-level event kind: only the step-6 deep walk can find the id. -/
def ceEvt : Js :=
  .obj [("payload", .obj [("entityType", .str "feature"), ("entityId", .str "deep-feature-0001")])]

def ceBody : Js := .obj [("data", .arr [ceEvt])]

/-- An envelope of shape 2 used by the normalizer witness. -/
def evA : Js := .obj [("type", .str "feature.updated"), ("id", .str "F1")]

def evB : Js := .obj [("type", .str "other.event")]

def bodyEnv2 : Js := .obj [("data", .obj [("events", .arr [evA, evB])])]

/-- A paginated remote that returns three empty pages that still carry a
cursor before finally omitting it. -/
def fetchCE : Js → Js := fun c =>
  match c with
  | .str "c1" => .obj [("data", .arr []), ("nextCursor", .str "c2")]
  | .str "c2" => .obj [("data", .arr []), ("nextCursor", .str "c3")]
  | .str "c3" => .obj [("data", .arr [])]
  | _ => .obj [("data", .arr []), ("nextCursor", .str "c1")]

/-- A misbehaving remote whose every page is empty yet carries a cursor. -/
def fetchAlways : Js → Js := fun _ =>
  .obj [("data", .arr []), ("nextCursor", .str "again")]

/-- Specification-side matching predicate: an option matches a product name
when its (string) label, trimmed and lowercased, equals the trimmed and
lowercased name.  Used to characterise the `find` loop of
`resolveSingleSelectOptionId`. -/
def labelMatches (pn : String) (o : Js) : Bool :=
  match o.get "label" with
  | .str s => decide (normKey s = normKey pn)
  | _ => false

/-! ## Helper lemmas -/

theorem handleFeatureEvent_unchanged (cfg : Config) (st st' : RemoteState) (fid : String)
    (hf : st'.features = st.features) (hp : st'.products = st.products)
    (hd : st'.fieldDefs = st.fieldDefs) :
    handleFeatureEvent cfg st' fid = handleFeatureEvent cfg st fid := by
  unfold handleFeatureEvent
  rw [hf, hp, hd]

theorem applyOutcome_features (st : RemoteState) (o : SyncOutcome) :
    (applyOutcome st o).features = st.features := by
  cases o with
  | completed w => cases w <;> rfl
  | failed e => rfl

theorem applyOutcome_products (st : RemoteState) (o : SyncOutcome) :
    (applyOutcome st o).products = st.products := by
  cases o with
  | completed w => cases w <;> rfl
  | failed e => rfl

theorem applyOutcome_fieldDefs (st : RemoteState) (o : SyncOutcome) :
    (applyOutcome st o).fieldDefs = st.fieldDefs := by
  cases o with
  | completed w => cases w <;> rfl
  | failed e => rfl

theorem runBatch_snd (cfg : Config) (st : RemoteState) (fids : List String) :
    ∀ st' : RemoteState,
      st'.features = st.features → st'.products = st.products → st'.fieldDefs = st.fieldDefs →
      (runBatch cfg st' fids).2 = fids.map (handleFeatureEvent cfg st) := by
  induction fids with
  | nil => intro st' _ _ _; rfl
  | cons fid rest ih =>
      intro st' hf hp hd
      have ho := handleFeatureEvent_unchanged cfg st st' fid hf hp hd
      have ih' := ih (applyOutcome st' (handleFeatureEvent cfg st' fid))
        (by rw [applyOutcome_features, hf]) (by rw [applyOutcome_products, hp])
        (by rw [applyOutcome_fieldDefs, hd])
      rw [ho] at ih'
      simp [runBatch, ho, ih']

theorem normLabel_str (s : String) : normLabel (.str s) = .ok (normKey s) := by
  by_cases h : s = ""
  · subst h; rfl
  · have ht : Js.truthy (.str s) = true := by simp [Js.truthy, h]
    simp [normLabel, jsOr, ht]

theorem findOption_eq_find (pn : String) (opts : List Js)
    (hl : ∀ o ∈ opts, (o.get "label").isStr = true) :
    findOption (.str pn) opts = .ok (opts.find? (labelMatches pn)) := by
  induction opts with
  | nil => rfl
  | cons o rest ih =>
      have ho := hl o (List.mem_cons_self o rest)
      obtain ⟨s, hs⟩ : ∃ s, o.get "label" = .str s := by
        cases h : o.get "label" <;> simp_all [Js.isStr]
      have ih' := ih fun o' ho' => hl o' (List.mem_cons_of_mem _ ho')
      by_cases he : normKey s = normKey pn
      · have hm : labelMatches pn o = true := by simp [labelMatches, hs, he]
        rw [List.find?_cons_of_pos _ hm]
        simp [findOption, hs, normLabel_str, he]
      · have hm : labelMatches pn o = false := by simp [labelMatches, hs, he]
        rw [List.find?_cons_of_neg _ (by simp [hm])]
        simp [findOption, hs, normLabel_str, he, ih']

theorem resolve_eq_find (cfId pn : String) (cfDef : Js) (opts : List Js)
    (hopts : jsOr (cfDef.get "options") (.arr []) = .arr opts)
    (hl : ∀ o ∈ opts, (o.get "label").isStr = true) :
    resolveSingleSelectOptionId cfId cfDef (.str pn) =
      (match opts.find? (labelMatches pn) with
       | some hit => .ok (hit.get "id")
       | none => .error (.noMatchingOption cfId pn)) := by
  have hstep : resolveSingleSelectOptionId cfId cfDef (.str pn) =
      (match findOption (.str pn) opts with
       | .error e => .error e
       | .ok (some hit) => .ok (hit.get "id")
       | .ok none => .error (.noMatchingOption cfId (Js.jsKey (.str pn)))) := by
    unfold resolveSingleSelectOptionId
    rw [hopts]
  rw [hstep, findOption_eq_find pn opts hl]
  cases opts.find? (labelMatches pn) <;> rfl

theorem extractStep5b_ok (t e : Js) : ∃ v, extractStep5b t e = .ok v := by
  unfold extractStep5b
  split
  · exact ⟨_, rfl⟩
  · exact ⟨_, rfl⟩

theorem extractStep5a_ok (s : String) (e : Js) : ∃ v, extractStep5a (.str s) e = .ok v := by
  unfold extractStep5a
  split
  · cases h : s.startsWith "feature."
    · simpa [jsStartsWith, h] using extractStep5b_ok (.str s) e
    · exact ⟨(e.get "data").get "id", by simp [jsStartsWith, h]⟩
  · exact extractStep5b_ok _ _

theorem extractStep5_ok (s : String) (e : Js) : ∃ v, extractStep5 (.str s) e = .ok v := by
  unfold extractStep5
  split
  · exact ⟨_, rfl⟩
  · exact extractStep5a_ok s e

theorem extractStep4_ok (s : String) (e : Js) : ∃ v, extractStep4 (.str s) e = .ok v := by
  unfold extractStep4
  split
  · cases h : s.startsWith "feature."
    · by_cases ht : (e.get "entityType").isStrEq "feature" = true
      · exact ⟨e.get "entityId", by simp [jsStartsWith, h, ht]⟩
      · simpa [jsStartsWith, h, ht] using extractStep5_ok s e
    · exact ⟨e.get "entityId", by simp [jsStartsWith, h]⟩
  · exact extractStep5_ok s e

theorem extractStep3_ok (s : String) (e : Js) : ∃ v, extractStep3 (.str s) e = .ok v := by
  unfold extractStep3
  split
  · exact ⟨_, rfl⟩
  · exact extractStep4_ok s e

theorem extractStep2_ok (s : String) (e : Js) : ∃ v, extractStep2 (.str s) e = .ok v := by
  unfold extractStep2
  split
  · split
    · exact ⟨_, rfl⟩
    · exact extractStep3_ok s e
  · exact extractStep3_ok s e

theorem extractStep1_ok (s : String) (e : Js) : ∃ v, extractStep1 (.str s) e = .ok v := by
  unfold extractStep1
  split
  · cases h : s.startsWith "feature."
    · simpa [jsStartsWith, h] using extractStep2_ok s e
    · exact ⟨e.get "id", by simp [jsStartsWith, h]⟩
  · exact extractStep2_ok s e

theorem extract_ok_of_strKind (e : Js) (s : String)
    (h : jsOr (jsOr (e.get "eventType") (e.get "type")) (.str "") = .str s) :
    ∃ v, extractFeatureIdFromEvent e = .ok v := by
  unfold extractFeatureIdFromEvent
  split
  · exact ⟨_, rfl⟩
  · rw [h]
    exact extractStep1_ok s e

theorem webhookProcess_status (body : Js) : (webhookProcess body).1 = 200 := by
  unfold webhookProcess
  cases canonicalEvents body <;> rfl

/-! ## Claim theorems -/

/-- C1 counterexample: `ceEvt` carries a feature reference that only the
step-6 deep walk can find (the extractor returns its id), its top-level
event-kind string is empty, and yet the webhook loop emits no canonical event
for the enclosing body — the deep-walk fallback is not exempt from the
kind-prefix gate. -/
theorem deepwalk_gate_counterexample :
    extractFeatureIdFromEvent ceEvt = .ok (.str "deep-feature-0001") ∧
    walkSt .null ceEvt = .str "deep-feature-0001" ∧
    jsOr (jsOr (ceEvt.get "eventType") (ceEvt.get "type")) (.str "") = .str "" ∧
    canonicalEvents ceBody = .ok [] :=
  ⟨rfl, rfl, rfl, rfl⟩

/-- C1 (amended): no extraction path is exempt from the kind-prefix gate.
Whenever a raw sub-event's top-level event-kind string (`eventType` or
`type`, defaulting to empty) is a string that does not start with
`"feature."`, the event loop emits no canonical event for that sub-event —
even when `extractFeatureIdFromEvent` finds a feature id for it via the
step-6 deep object-graph walk. -/
theorem deepwalk_kind_gate (evt : Js) (rest : List Js) (s : String)
    (hk : jsOr (jsOr (evt.get "eventType") (evt.get "type")) (.str "") = .str s)
    (hs : s.startsWith "feature." = false) :
    emitLoop (evt :: rest) = emitLoop rest := by
  obtain ⟨v, hv⟩ := extract_ok_of_strKind evt s hk
  cases hvt : v.truthy
  · simp [emitLoop, hv, hvt]
  · simp [emitLoop, hv, hvt, hk, jsStartsWith, hs]

/-- Witness for `deepwalk_kind_gate` at the concrete deep-walk-only event. -/
theorem deepwalk_kind_gate_witness : emitLoop [ceEvt] = emitLoop [] :=
  deepwalk_kind_gate ceEvt [] "" rfl rfl

/-- C2 counterexample: against a remote that returns three successive empty
pages that still carry a cursor, the backfill loop runs 4 iterations with 0
entities processed — after the first no-progress iteration it performs three
further no-progress iterations, not at most one, before stopping. -/
theorem backfill_no_progress_counterexample :
    backfillAllFeatures fetchCE 10 = some (.ok (4, 0)) ∧ 1 + 1 < 4 :=
  ⟨rfl, by decide⟩

/-- C2 (amended): the backfill pagination loop keeps iterating for as long as
every fetched page carries a truthy cursor — an empty page with a cursor
causes one further iteration each time, with no cap on no-progress
iterations, so the loop never completes against a remote whose every page
carries a cursor; it stops only when a page yields no cursor (as in the
4-iteration run against `fetchCE`). -/
theorem backfill_cursor_loop_uncapped :
    (∀ (fuel : Nat) (cursor : Js) (iters processed : Nat),
        backfillLoop fetchAlways fuel cursor iters processed = none) ∧
    backfillAllFeatures fetchCE 10 = some (.ok (4, 0)) := by
  refine ⟨?_, rfl⟩
  intro fuel
  induction fuel with
  | zero => intro cursor iters processed; rfl
  | succ n ih =>
      intro cursor iters processed
      exact ih (.str "again") (iters + 1) (processed + 0)

/-- C3: an enumerated-mode sync whose option set contains no label matching
the product name reports a `NoMatchingOption` error, performs no field-value
write for that entity, and leaves every other entity of the batch processed
exactly as it would have been. -/
theorem noMatchingOption_isolated (cfg : Config) (st : RemoteState) (fid : String)
    (pre post : List String) (feature product cfDef : Js) (opts : List Js) (pn : String)
    (hmode : cfg.fieldMode ≠ "text")
    (hfeat : st.features fid = some feature)
    (hpid : (getParentProductId feature).truthy = true)
    (hprod : st.products (Js.jsKey (getParentProductId feature)) = some product)
    (hname : product.get "name" = .str pn)
    (hpn : pn ≠ "")
    (hdef : st.fieldDefs cfg.cfId = some cfDef)
    (hopts : jsOr (cfDef.get "options") (.arr []) = .arr opts)
    (hlabels : ∀ o ∈ opts, (o.get "label").isStr = true)
    (hnomatch : ∀ o ∈ opts, labelMatches pn o = false) :
    handleFeatureEvent cfg st fid = .failed (.noMatchingOption cfg.cfId pn) ∧
    outcomeWrites (handleFeatureEvent cfg st fid) = [] ∧
    (runBatch cfg st (pre ++ fid :: post)).2 =
      pre.map (handleFeatureEvent cfg st) ++
        SyncOutcome.failed (.noMatchingOption cfg.cfId pn) :: post.map (handleFeatureEvent cfg st) := by
  have hfind : opts.find? (labelMatches pn) = none :=
    List.find?_eq_none.mpr fun o ho => by simp [hnomatch o ho]
  have hres : resolveSingleSelectOptionId cfg.cfId cfDef (.str pn) =
      .error (.noMatchingOption cfg.cfId pn) := by
    rw [resolve_eq_find cfg.cfId pn cfDef opts hopts hlabels, hfind]
  have hnt : (Js.str pn).truthy = true := by simp [Js.truthy, hpn]
  have hmain : handleFeatureEvent cfg st fid = .failed (.noMatchingOption cfg.cfId pn) := by
    unfold handleFeatureEvent handleFeatureEventCore
    rw [hfeat]
    simp [hpid, hprod, hname, hnt, hmode, hdef, hres]
  refine ⟨hmain, by rw [hmain]; rfl, ?_⟩
  have hbatch := runBatch_snd cfg st (pre ++ fid :: post) st rfl rfl rfl
  rw [hbatch, List.map_append, List.map_cons, hmain]

/-- Witness for `noMatchingOption_isolated`: scenario D (`F4` under `P4`
named `"Zephyr"`, options offering only `"Nimbus"`), inside a batch with a
second entity that is still processed. -/
theorem noMatchingOption_isolated_witness :
    handleFeatureEvent cfgSel stD "F4" = .failed (.noMatchingOption "cf-1" "Zephyr") ∧
    outcomeWrites (handleFeatureEvent cfgSel stD "F4") = [] ∧
    (runBatch cfgSel stD ([] ++ "F4" :: ["F0"])).2 =
      List.map (handleFeatureEvent cfgSel stD) [] ++
        SyncOutcome.failed (.noMatchingOption "cf-1" "Zephyr") ::
          List.map (handleFeatureEvent cfgSel stD) ["F0"] :=
  noMatchingOption_isolated cfgSel stD "F4" [] ["F0"] featureF4 productP4 cfDefD
    [optNimbus] "Zephyr" (by decide) rfl rfl rfl rfl (by decide) rfl rfl
    (by decide) (by decide)

/-- C4: the parent product id is `feature?.product?.id ||
feature?.parent?.product?.id` — the direct reference wins when truthy, the
`parent`-nested one is used otherwise — and a sync whose parent id is not
truthy, or whose fetched product has no truthy `name`, completes without an
error and without a write. -/
theorem parent_resolution_skip (cfg : Config) (st : RemoteState) (fid : String) (feature : Js)
    (hfeat : st.features fid = some feature) :
    (((feature.get "product").get "id").truthy = true →
        getParentProductId feature = (feature.get "product").get "id") ∧
    (((feature.get "product").get "id").truthy = false →
        getParentProductId feature = ((feature.get "parent").get "product").get "id") ∧
    ((getParentProductId feature).truthy = false →
        handleFeatureEvent cfg st fid = .completed none ∧
        outcomeWrites (handleFeatureEvent cfg st fid) = []) ∧
    (∀ product : Js, st.products (Js.jsKey (getParentProductId feature)) = some product →
        (product.get "name").truthy = false →
        handleFeatureEvent cfg st fid = .completed none ∧
        outcomeWrites (handleFeatureEvent cfg st fid) = []) := by
  refine ⟨?_, ?_, ?_, ?_⟩
  · intro h; simp [getParentProductId, jsOr, h]
  · intro h; simp [getParentProductId, jsOr, h]
  · intro h
    have hm : handleFeatureEvent cfg st fid = .completed none := by
      unfold handleFeatureEvent handleFeatureEventCore
      rw [hfeat]
      simp [h]
    exact ⟨hm, by rw [hm]; rfl⟩
  · intro product hp hn
    cases hpt : (getParentProductId feature).truthy with
    | false =>
        have hm : handleFeatureEvent cfg st fid = .completed none := by
          unfold handleFeatureEvent handleFeatureEventCore
          rw [hfeat]
          simp [hpt]
        exact ⟨hm, by rw [hm]; rfl⟩
    | true =>
        have hm : handleFeatureEvent cfg st fid = .completed none := by
          unfold handleFeatureEvent handleFeatureEventCore
          rw [hfeat]
          simp [hpt, hp, hn]
        exact ⟨hm, by rw [hm]; rfl⟩

/-- Witness for `parent_resolution_skip`: scenario C — `F3` has no parent
reference, so the sync completes with no write and no error. -/
theorem parent_resolution_skip_witness :
    handleFeatureEvent cfgText stC "F3" = .completed none ∧
    outcomeWrites (handleFeatureEvent cfgText stC "F3") = [] :=
  (parent_resolution_skip cfgText stC "F3" featureF3 rfl).2.2.1 rfl

/-- C5: with the remote feature, product and field-definition data unchanged,
`handleFeatureEvent` is insensitive to the stored field values (the write is
not gated on the field's prior value), so running the sync a second time
right after the first produces the same outcome and issues the identical
write. -/
theorem sync_idempotent_unconditional (cfg : Config) (st st' : RemoteState) (fid : String)
    (hf : st'.features = st.features) (hp : st'.products = st.products)
    (hd : st'.fieldDefs = st.fieldDefs) :
    handleFeatureEvent cfg st' fid = handleFeatureEvent cfg st fid ∧
    (runSync cfg (runSync cfg st fid).1 fid).2 = (runSync cfg st fid).2 ∧
    outcomeWrites ((runSync cfg (runSync cfg st fid).1 fid).2) =
      outcomeWrites ((runSync cfg st fid).2) := by
  have hsecond : handleFeatureEvent cfg (runSync cfg st fid).1 fid = handleFeatureEvent cfg st fid :=
    handleFeatureEvent_unchanged cfg st (runSync cfg st fid).1 fid
      (applyOutcome_features st _) (applyOutcome_products st _) (applyOutcome_fieldDefs st _)
  exact ⟨handleFeatureEvent_unchanged cfg st st' fid hf hp hd, hsecond,
    congrArg outcomeWrites hsecond⟩

/-- Witness for `sync_idempotent_unconditional`: scenario A in text mode —
both runs write the literal `"Atlas"` for `F1`. -/
theorem sync_idempotent_unconditional_witness :
    (runSync cfgText (runSync cfgText stA "F1").1 "F1").2 = (runSync cfgText stA "F1").2 ∧
    (runSync cfgText stA "F1").2 =
      .completed (some (setCustomFieldValue "F1" "cf-1" (.text (.str "Atlas")))) :=
  ⟨(sync_idempotent_unconditional cfgText stA stA "F1" rfl rfl rfl).2.1, rfl⟩

/-- C6: for a truthy inbound body (the JSON middleware only delivers parsed
objects or arrays), the normalizer picks the batch by first match over the
envelope shapes in order — `data` as an array, else `data.events` as an
array, else truthy object `data` as a single sub-event, else the whole body —
returning the sub-events in their original order. -/
theorem normalize_envelope_first_match (body : Js) (hb : body.truthy = true) :
    (∀ xs, body.get "data" = .arr xs → normalizeEvents body = xs) ∧
    (∀ es, (body.get "data").isArr = false →
        ((body.get "data").get "events") = .arr es → normalizeEvents body = es) ∧
    ((body.get "data").isArr = false → ((body.get "data").get "events").isArr = false →
        ((body.get "data").truthy && (body.get "data").isObjType) = true →
        normalizeEvents body = [body.get "data"]) ∧
    ((body.get "data").isArr = false → ((body.get "data").get "events").isArr = false →
        ((body.get "data").truthy && (body.get "data").isObjType) = false →
        normalizeEvents body = [body]) := by
  refine ⟨?_, ?_, ?_, ?_⟩
  · intro xs h
    simp [normalizeEvents, hb, h]
  · intro es hna he
    cases hd : body.get "data" <;> rw [hd] at hna he <;>
      simp_all [normalizeEvents, hb, Js.isArr, Js.get]
  · intro hna hne hobj
    cases hd : body.get "data" <;> rw [hd] at hna hne hobj <;>
      [skip; skip; skip; skip; simp_all [Js.isArr]; skip] <;>
      cases he : (body.get "data").get "events" <;> rw [hd] at he <;>
      simp_all [normalizeEvents, hb, Js.isArr, Js.isObjType, Js.truthy, Js.get]
  · intro hna hne hobj
    cases hd : body.get "data" <;> rw [hd] at hna hne hobj <;>
      [skip; skip; skip; skip; simp_all [Js.isArr]; skip] <;>
      cases he : (body.get "data").get "events" <;> rw [hd] at he <;>
      simp_all [normalizeEvents, hb, Js.isArr, Js.isObjType, Js.truthy, Js.get]

/-- Witness for `normalize_envelope_first_match`: the shape-2 envelope with
`data.events` holding two sub-events is normalized to exactly those two
sub-events in order. -/
theorem normalize_envelope_first_match_witness : normalizeEvents bodyEnv2 = [evA, evB] :=
  (normalize_envelope_first_match bodyEnv2 rfl).2.1 [evA, evB] rfl rfl

/-- C7: label normalization trims and lowercases (`normKey`); two string
labels normalize equally iff their keys are equal; and enumerated-mode
resolution returns the id of the first option, in definition order, whose
normalized label equals the normalized product name, failing with
`NoMatchingOption` otherwise. -/
theorem label_match_first_option (cfId : String) (cfDef : Js) (opts : List Js) (pn : String)
    (hopts : jsOr (cfDef.get "options") (.arr []) = .arr opts)
    (hl : ∀ o ∈ opts, (o.get "label").isStr = true) :
    (∀ s : String, normLabel (.str s) = .ok (normKey s)) ∧
    (∀ a b : String, (normLabel (.str a) = normLabel (.str b)) ↔ normKey a = normKey b) ∧
    resolveSingleSelectOptionId cfId cfDef (.str pn) =
      (match opts.find? (labelMatches pn) with
       | some hit => .ok (hit.get "id")
       | none => .error (.noMatchingOption cfId pn)) := by
  refine ⟨normLabel_str, ?_, resolve_eq_find cfId pn cfDef opts hopts hl⟩
  intro a b
  simp [normLabel_str]

/-- Witness for `label_match_first_option`: scenario B options
(`" Nimbus "`, `"Orbit"`) against product name `"nimbus"` resolve to `o1` —
normalization bridges the whitespace and case difference. -/
theorem label_match_first_option_witness :
    resolveSingleSelectOptionId "cf-1" cfDefB (.str "nimbus") = .ok (.str "o1") :=
  ((label_match_first_option "cf-1" cfDefB [optO1, optO2] "nimbus" rfl
    (by decide)).2.2).trans rfl

/-- C8: `ensureWebhook` compares each stored registration's notification URL
to the target by exact string equality; with a match present it creates
nothing, and starting from a store with no match, the first call creates
exactly one registration and the second call is a no-op, leaving exactly one
matching registration. -/
theorem ensureWebhook_idempotent (t : String) (regs : List Js)
    (h : countMatching t regs = 0) :
    ensureWebhook t regs = regs ++ [mkRegistration t] ∧
    ensureWebhook t (ensureWebhook t regs) = ensureWebhook t regs ∧
    countMatching t (ensureWebhook t (ensureWebhook t regs)) = 1 ∧
    (∀ regs2 : List Js, (∃ w ∈ regs2, regMatchesUrl t w = true) →
        ensureWebhook t regs2 = regs2) := by
  have hfilter : regs.filter (regMatchesUrl t) = [] :=
    List.length_eq_zero.mp h
  have hall : ∀ w ∈ regs, regMatchesUrl t w = false := by
    intro w hw
    by_contra hc
    have : w ∈ regs.filter (regMatchesUrl t) :=
      List.mem_filter.mpr ⟨hw, by simpa using hc⟩
    simp [hfilter] at this
  have hnone : regs.find? (regMatchesUrl t) = none :=
    List.find?_eq_none.mpr fun w hw => by simp [hall w hw]
  have hmk : regMatchesUrl t (mkRegistration t) = true := by
    simp [regMatchesUrl, mkRegistration, Js.get, Js.fieldLookup, Js.isStrEq]
  have h1 : ensureWebhook t regs = regs ++ [mkRegistration t] := by
    unfold ensureWebhook
    rw [hnone]
  have h2find : (regs ++ [mkRegistration t]).find? (regMatchesUrl t) =
      some (mkRegistration t) := by
    rw [List.find?_append, hnone]
    simp [List.find?_cons, hmk]
  have h2 : ensureWebhook t (regs ++ [mkRegistration t]) = regs ++ [mkRegistration t] := by
    unfold ensureWebhook
    rw [h2find]
  have hcount : countMatching t (regs ++ [mkRegistration t]) = 1 := by
    unfold countMatching
    rw [List.filter_append, hfilter]
    simp [hmk]
  refine ⟨h1, by rw [h1, h2], by rw [h1, h2, hcount], ?_⟩
  intro regs2 ⟨w, hw, hmatch⟩
  have : regs2.find? (regMatchesUrl t) ≠ none := by
    intro hcontra
    exact absurd hmatch (by simpa using List.find?_eq_none.mp hcontra w hw)
  unfold ensureWebhook
  cases hf : regs2.find? (regMatchesUrl t) with
  | none => exact absurd hf this
  | some u => rfl

/-- Witness for `ensureWebhook_idempotent`: starting from an empty store,
registering twice leaves exactly one matching registration. -/
theorem ensureWebhook_idempotent_witness :
    countMatching "https://example.test/pb-webhook"
      (ensureWebhook "https://example.test/pb-webhook"
        (ensureWebhook "https://example.test/pb-webhook" [])) = 1 :=
  (ensureWebhook_idempotent "https://example.test/pb-webhook" [] rfl).2.2.1

/-- C9: for every request reaching the handler — whatever the body, including
bodies yielding zero events and bodies whose processing raises an uncaught
exception — the response status is 200, except that it is 401 exactly when a
secret is configured and the incoming header differs from it. -/
theorem webhook_always_200_except_unauthorized (env incoming : Option String) (body : Js) :
    (pbWebhook (mkSharedSecret env) incoming body).1 =
      if mkSharedSecret env ≠ none ∧ incoming ≠ mkSharedSecret env then 401 else 200 := by
  cases env with
  | none => simp [mkSharedSecret, pbWebhook, webhookProcess_status]
  | some s =>
      by_cases hs : s = ""
      · subst hs
        simp [mkSharedSecret, pbWebhook, webhookProcess_status]
      · by_cases hi : incoming = some s
        · subst hi
          simp [mkSharedSecret, pbWebhook, hs, webhookProcess_status]
        · simp [mkSharedSecret, pbWebhook, hs, hi, webhookProcess_status]

/-- C10: the 401 branch is taken iff a shared secret is configured (non-null)
and the incoming `x-shared-secret` header differs from it; with no secret
configured the handler performs no check and the whole response equals that
of unauthenticated event processing. -/
theorem unauthorized_iff_secret_mismatch (env incoming : Option String) (body : Js) :
    ((pbWebhook (mkSharedSecret env) incoming body).1 = 401 ↔
        ∃ s, mkSharedSecret env = some s ∧ incoming ≠ some s) ∧
    (mkSharedSecret env = none →
        pbWebhook (mkSharedSecret env) incoming body = webhookProcess body) := by
  have h200 : (webhookProcess body).1 = 200 := webhookProcess_status body
  cases env with
  | none =>
      refine ⟨⟨fun h => ?_, fun ⟨s, hs, _⟩ => by simp [mkSharedSecret] at hs⟩, fun _ => rfl⟩
      rw [show pbWebhook (mkSharedSecret none) incoming body = webhookProcess body from rfl] at h
      omega
  | some s =>
      by_cases hs : s = ""
      · subst hs
        refine ⟨⟨fun h => ?_, fun ⟨u, hu, _⟩ => by simp [mkSharedSecret] at hu⟩, fun _ => rfl⟩
        rw [show pbWebhook (mkSharedSecret (some "")) incoming body = webhookProcess body
          from rfl] at h
        omega
      · have hsecret : mkSharedSecret (some s) = some s := by simp [mkSharedSecret, hs]
        constructor
        · rw [hsecret]
          constructor
          · intro h
            refine ⟨s, rfl, ?_⟩
            intro hi
            rw [show pbWebhook (some s) incoming body =
              (if s = "" then webhookProcess body
               else if incoming ≠ some s then (401, []) else webhookProcess body) from rfl] at h
            simp [hs, hi] at h
            omega
          · intro ⟨u, hu, hne⟩
            have : s = u := by simpa using hu
            subst this
            simp [pbWebhook, hs, hne]
        · intro hnone
          rw [hsecret] at hnone
          exact absurd hnone (by simp)

/-- Witness for `unauthorized_iff_secret_mismatch`: with secret `"sec"`
configured and no incoming header, the response status is 401. -/
theorem unauthorized_iff_secret_mismatch_witness :
    (pbWebhook (mkSharedSecret (some "sec")) none (Js.obj [])).1 = 401 :=
  (unauthorized_iff_secret_mismatch (some "sec") none (Js.obj [])).1.mpr
    ⟨"sec", by simp [mkSharedSecret], by simp⟩
